import Mathlib

/-!
Verification of the orchestration core of
`apps/api/src/scraper/WebScraper/single_url.ts`.

The TypeScript source is shallowly embedded below.  External
collaborators (network adapters, HTML cleaning, markdown conversion,
metadata extraction, the host-override table, the custom-scraping hook,
the JavaScript `URL` parser) are modelled as explicit function
parameters, while every decision made by the module itself (the fallback
order planner, the per-attempt state folding, the judging conditions of
the orchestration loop, the degraded-document fallback) is translated
directly from the source.
-/

namespace Firecrawl

/-- Insertion-order de-duplication, as performed by the JavaScript
`new Set([...])` constructor followed by `Array.from`: the first
occurrence of each element is kept and later duplicates are dropped.
`seen` accumulates the elements already emitted. -/
def jsSetDedup (seen : List String) : List String → List String
  | [] => []
  | x :: xs => if x ∈ seen then jsSetDedup seen xs else x :: jsSetDedup (x :: seen) xs

theorem mem_jsSetDedup {a : String} :
    ∀ (l seen : List String), a ∈ jsSetDedup seen l ↔ a ∈ l ∧ a ∉ seen := by
  intro l
  induction l with
  | nil => intro seen; simp [jsSetDedup]
  | cons x xs ih =>
    intro seen
    rw [jsSetDedup]
    by_cases hx : x ∈ seen
    · rw [if_pos hx, ih]
      constructor
      · rintro ⟨ha, hs⟩
        exact ⟨List.mem_cons_of_mem _ ha, hs⟩
      · rintro ⟨ha, hs⟩
        rcases List.mem_cons.1 ha with h | h
        · subst h; exact absurd hx hs
        · exact ⟨h, hs⟩
    · rw [if_neg hx]
      constructor
      · intro hmem
        rcases List.mem_cons.1 hmem with h | h
        · subst h; exact ⟨List.mem_cons_self _ _, hx⟩
        · rcases (ih (x :: seen)).1 h with ⟨hxs, hns⟩
          exact ⟨List.mem_cons_of_mem _ hxs,
            fun hs => hns (List.mem_cons_of_mem _ hs)⟩
      · rintro ⟨ha, hs⟩
        by_cases hax : a = x
        · subst hax; exact List.mem_cons_self _ _
        · rcases List.mem_cons.1 ha with h | h
          · exact absurd h hax
          · refine List.mem_cons_of_mem _ ((ih (x :: seen)).2 ⟨h, ?_⟩)
            intro hc
            rcases List.mem_cons.1 hc with h2 | h2
            · exact hax h2
            · exact hs h2

theorem nodup_jsSetDedup : ∀ (l seen : List String), (jsSetDedup seen l).Nodup := by
  intro l
  induction l with
  | nil => intro seen; simp [jsSetDedup]
  | cons x xs ih =>
    intro seen
    rw [jsSetDedup]
    by_cases hx : x ∈ seen
    · rw [if_pos hx]; exact ih seen
    · rw [if_neg hx]
      refine List.nodup_cons.2 ⟨?_, ih _⟩
      intro hmem
      rcases (mem_jsSetDedup xs (x :: seen)).1 hmem with ⟨_, hns⟩
      exact hns (List.mem_cons_self x _)

theorem sublist_jsSetDedup : ∀ (l seen : List String), (jsSetDedup seen l).Sublist l := by
  intro l
  induction l with
  | nil => intro seen; simp [jsSetDedup]
  | cons x xs ih =>
    intro seen
    rw [jsSetDedup]
    by_cases hx : x ∈ seen
    · rw [if_pos hx]
      exact List.Sublist.trans (ih seen) (List.sublist_cons_self x xs)
    · rw [if_neg hx]
      exact List.Sublist.cons₂ x (ih (x :: seen))

/-! ### Fallback order planner (`getScrapingFallbackOrder`) -/

/-- The fixed list of scraper backends (`baseScrapers` in the source). -/
def baseScrapers : List String :=
  ["fire-engine", "scrapingBee", "playwright", "scrapingBeeLoad", "fetch"]

/-- Presence of each backend's endpoint/credential environment variable
(`SCRAPING_BEE_API_KEY`, `FIRE_ENGINE_BETA_URL`,
`PLAYWRIGHT_MICROSERVICE_URL`). -/
structure EnvConfig where
  scrapingBeeKey : Bool
  fireEngineUrl : Bool
  playwrightUrl : Bool
deriving DecidableEq

/-- Availability of one scraper, the `switch` inside
`getScrapingFallbackOrder`. -/
def scraperAvailable (env : EnvConfig) (scraper : String) : Bool :=
  if scraper = "scrapingBee" ∨ scraper = "scrapingBeeLoad" then env.scrapingBeeKey
  else if scraper = "fire-engine" then env.fireEngineUrl
  else if scraper = "playwright" then env.playwrightUrl
  else true

/-- `baseScrapers.filter(...)` from the source. -/
def availableScrapers (env : EnvConfig) : List String :=
  baseScrapers.filter (fun s => scraperAvailable env s)

/-- The candidate list fed to the de-duplicating `Set` in
`getScrapingFallbackOrder`: the default order (optionally promoted when a
wait, screenshot or custom headers are requested) filtered to available
scrapers, with a truthy `defaultScraper` prepended and the available
scrapers appended.  An empty string models an absent (falsy)
`defaultScraper`. -/
def plannedCandidates (env : EnvConfig) (defaultScraper : String)
    (isWaitPresent isScreenshotPresent isHeadersPresent : Bool) : List String :=
  let avail := availableScrapers env
  let defaultOrder :=
    ["scrapingBee", "fire-engine", "playwright", "scrapingBeeLoad", "fetch"]
  let defaultOrder :=
    if isWaitPresent || isScreenshotPresent || isHeadersPresent then
      "fire-engine" :: "playwright" ::
        defaultOrder.filter
          (fun s => decide (s ≠ "fire-engine" ∧ s ≠ "playwright"))
    else defaultOrder
  let filteredDefaultOrder := defaultOrder.filter (fun s => decide (s ∈ avail))
  if defaultScraper = "" then filteredDefaultOrder ++ avail
  else defaultScraper :: (filteredDefaultOrder ++ avail)

/-- `getScrapingFallbackOrder` from the source: the candidate list pushed
through the insertion-order `Set`. -/
def getScrapingFallbackOrder (env : EnvConfig) (defaultScraper : String)
    (isWaitPresent isScreenshotPresent isHeadersPresent : Bool) : List String :=
  jsSetDedup []
    (plannedCandidates env defaultScraper isWaitPresent isScreenshotPresent
      isHeadersPresent)

/-! ### Host parameter resolver (`generateRequestParams`) -/

/-- The `params` sub-object of the default request parameters
(`{ timeout, wait_browser }`). -/
structure ParamsObj where
  timeout : Int
  wait_browser : String
deriving DecidableEq

/-- One entry of the host-keyed override table `urlSpecificParams`.
Modelled from the spec: the table itself lives in
`utils/custom/website_params` (not part of this module); per the spec it
is a read-only table keyed by normalized hostname whose entries may carry
an optional forced backend name and optional top-level replacements for
the request-parameter fields, shallow-merged over the defaults. -/
structure OverrideEntry where
  url : Option String
  params : Option ParamsObj
  headers : Option (List (String × String))
  defaultScraper : Option String
deriving DecidableEq

/-- The shape returned by `generateRequestParams`: the three top-level
fields of `defaultParams`, over which an override entry is shallow-merged
by the JavaScript spread operator. -/
structure ReqParams where
  url : String
  params : ParamsObj
  headers : List (String × String)
deriving DecidableEq

/-- `hostname.replace(/^www\./, "")`: drop a leading `www.` when
present.  Defined over the character list so that it evaluates by kernel
reduction. -/
def stripWww (host : String) : String :=
  if host.data.take 4 = ['w', 'w', 'w', '.'] then String.mk (host.data.drop 4)
  else host

/-- The `defaultParams` object built at the top of
`generateRequestParams`. -/
def defaultRequestParams (url : String) (wait_browser : String) (timeout : Int) :
    ReqParams :=
  { url := url
    params := { timeout := timeout, wait_browser := wait_browser }
    headers := [("ScrapingService-Request", "TRUE")] }

/-- `generateRequestParams` from the source.  `parseHost` models the
JavaScript `new URL(url).hostname` (`none` when the constructor throws,
which the source catches, falling back to the defaults); `overrides`
models the `urlSpecificParams` table lookup. -/
def generateRequestParams (parseHost : String → Option String)
    (overrides : String → Option OverrideEntry)
    (url : String) (wait_browser : String) (timeout : Int) : ReqParams :=
  let defaults := defaultRequestParams url wait_browser timeout
  match parseHost url with
  | none => defaults
  | some host =>
    let urlKey := stripWww host
    match overrides urlKey with
    | some o =>
      { url := o.url.getD defaults.url
        params := o.params.getD defaults.params
        headers := o.headers.getD defaults.headers }
    | none => defaults

/-! ### Per-attempt scraping (`attemptScraping`) -/

/-- The uniform result shape of `scrapWithFireEngine` (and, with the
screenshot field unused, of the other adapters): raw html, screenshot,
and provider-reported status/error. -/
structure FireEngineResponse where
  html : String
  screenshot : String
  pageStatusCode : Option Int
  pageError : Option String
deriving DecidableEq

/-- The result shape of `fetchAndProcessPdf`. -/
structure PdfResult where
  content : String
  pageStatusCode : Option Int
  pageError : Option String
deriving DecidableEq

/-- The mutable `scraperResponse` record inside `attemptScraping`. -/
structure ScraperResponse where
  text : String
  screenshot : String
  pageStatusCode : Option Int
  pageError : Option String
deriving DecidableEq

/-- The two backends a custom-scraping directive can name, per the return
type of `handleCustomScraping`. -/
inductive CustomScraperKind where
  | fireEngine
  | pdf
deriving DecidableEq

/-- A directive returned by the custom override hook
`handleCustomScraping` (an external collaborator): the backend to
re-fetch with, the target url and the wait parameter it carries. -/
structure CustomScraperResult where
  scraper : CustomScraperKind
  url : String
  waitAfterLoad : Int
deriving DecidableEq

/-- The value `attemptScraping` returns for one attempt. -/
structure AttemptResult where
  text : String
  html : String
  rawHtml : String
  screenshot : String
  pageStatusCode : Option Int
  pageError : Option String
deriving DecidableEq

/-- `attemptScraping` plus instrumentation: the texts the custom hook was
invoked on and how many extra fetches the directive triggered. -/
structure AttemptTrace where
  result : AttemptResult
  hookCalls : List String
  extraFetches : Nat
deriving DecidableEq

/-- The `switch (method)` at the top of `attemptScraping`: each branch is
guarded by the presence of the backend's environment variable and copies
the adapter's response into `scraperResponse`.  Only the fire-engine
branch copies a screenshot.  `adapters` gives each adapter's response. -/
def runBackend (env : EnvConfig) (adapters : String → FireEngineResponse)
    (method : String) : ScraperResponse :=
  if method = "fire-engine" then
    if env.fireEngineUrl then
      let r := adapters "fire-engine"
      { text := r.html, screenshot := r.screenshot,
        pageStatusCode := r.pageStatusCode, pageError := r.pageError }
    else { text := "", screenshot := "", pageStatusCode := none, pageError := none }
  else if method = "scrapingBee" then
    if env.scrapingBeeKey then
      let r := adapters "scrapingBee"
      { text := r.html, screenshot := "",
        pageStatusCode := r.pageStatusCode, pageError := r.pageError }
    else { text := "", screenshot := "", pageStatusCode := none, pageError := none }
  else if method = "playwright" then
    if env.playwrightUrl then
      let r := adapters "playwright"
      { text := r.html, screenshot := "",
        pageStatusCode := r.pageStatusCode, pageError := r.pageError }
    else { text := "", screenshot := "", pageStatusCode := none, pageError := none }
  else if method = "scrapingBeeLoad" then
    if env.scrapingBeeKey then
      let r := adapters "scrapingBeeLoad"
      { text := r.html, screenshot := "",
        pageStatusCode := r.pageStatusCode, pageError := r.pageError }
    else { text := "", screenshot := "", pageStatusCode := none, pageError := none }
  else if method = "fetch" then
    let r := adapters "fetch"
    { text := r.html, screenshot := "",
      pageStatusCode := r.pageStatusCode, pageError := r.pageError }
  else { text := "", screenshot := "", pageStatusCode := none, pageError := none }

/-- The `switch (customScraperResult.scraper)` block: builds
`customScrapedContent` from the directive.  `screenshotVar` is the local
`screenshot` variable of `attemptScraping`, which is still `""` at this
point; the source nevertheless tests it (`if (screenshot) ...`) in the
fire-engine branch, so the test is kept. -/
def applyCustomScraper (feFetch : CustomScraperResult → FireEngineResponse)
    (pdfFetch : String → PdfResult) (screenshotVar : String)
    (csr : CustomScraperResult) : FireEngineResponse :=
  match csr.scraper with
  | CustomScraperKind.fireEngine =>
    let c := feFetch csr
    if screenshotVar ≠ "" then
      { html := c.html, screenshot := screenshotVar,
        pageStatusCode := c.pageStatusCode, pageError := c.pageError }
    else c
  | CustomScraperKind.pdf =>
    let p := pdfFetch csr.url
    { html := p.content, screenshot := screenshotVar,
      pageStatusCode := p.pageStatusCode, pageError := p.pageError }

/-- `x || undefined` on a JavaScript `string | undefined`: an empty
string is falsy and collapses to `undefined`. -/
def jsOrUndef : Option String → Option String
  | none => none
  | some s => if s = "" then none else some s

/-- `attemptScraping` from the source.  `hook` models
`handleCustomScraping(text, url)`; `feFetch` models the extra
`scrapWithFireEngine` call made for a fire-engine directive (applied to
the directive's parameters); `pdfFetch` models `fetchAndProcessPdf`;
`clean` models `removeUnwantedElements` (with the page options already
applied) and `md` models `parseMarkdown`.  Note that after the optional
replacement the local `screenshot` variable receives the replacement's
screenshot but is never read again: the returned screenshot is
`scraperResponse.screenshot`, i.e. the original backend's. -/
def attemptScraping (env : EnvConfig) (adapters : String → FireEngineResponse)
    (hook : String → String → Option CustomScraperResult)
    (feFetch : CustomScraperResult → FireEngineResponse)
    (pdfFetch : String → PdfResult)
    (clean : String → String) (md : String → String)
    (url method : String) : AttemptTrace :=
  let sr := runBackend env adapters method
  let screenshotVar := ""
  let directive := hook sr.text url
  let customScrapedContent :=
    directive.map (applyCustomScraper feFetch pdfFetch screenshotVar)
  let text2 :=
    match customScrapedContent with
    | some c => c.html
    | none => sr.text
  let _screenshotVar2 :=
    match customScrapedContent with
    | some c => c.screenshot
    | none => screenshotVar
  let cleanedHtml := clean text2
  { result :=
      { text := md cleanedHtml
        html := cleanedHtml
        rawHtml := text2
        screenshot := sr.screenshot
        pageStatusCode := sr.pageStatusCode
        pageError := jsOrUndef sr.pageError }
    hookCalls := [sr.text]
    extraFetches := match directive with | some _ => 1 | none => 0 }

/-! ### Orchestration loop (`scrapSingleUrl`) -/

/-- JavaScript `String.prototype.trim`: strip leading and trailing
whitespace.  Defined explicitly (over the character list) so that it
evaluates by kernel reduction. -/
def jsTrim (s : String) : String :=
  String.mk
    (((s.data.dropWhile Char.isWhitespace).reverse.dropWhile
      Char.isWhitespace).reverse)

/-- The mutable accumulator variables of `scrapSingleUrl`
(`text`, `html`, `rawHtml`, `screenshot`, `pageStatusCode`,
`pageError`). -/
structure LoopState where
  text : String
  html : String
  rawHtml : String
  screenshot : String
  pageStatusCode : Int
  pageError : Option String
deriving DecidableEq

/-- Their initial values (line 594 of the source). -/
def initLoopState : LoopState :=
  { text := "", html := "", rawHtml := "", screenshot := "",
    pageStatusCode := 200, pageError := none }

/-- JavaScript truthiness of a `number | undefined`: `undefined` and `0`
are falsy. -/
def jsTruthyInt : Option Int → Bool
  | none => false
  | some v => decide (v ≠ 0)

/-- JavaScript truthiness of a `string | undefined`: `undefined` and the
empty string are falsy. -/
def jsTruthyStr : Option String → Bool
  | none => false
  | some s => decide (s ≠ "")

/-- `x >= 400` on a `number | undefined`: comparisons against
`undefined` are false. -/
def jsGe400 : Option Int → Bool
  | none => false
  | some v => decide (400 ≤ v)

/-- `x < 400` on a `number | undefined`: comparisons against `undefined`
are false. -/
def jsLt400 : Option Int → Bool
  | none => false
  | some v => decide (v < 400)

/-- Folding one attempt into the carried loop state (lines 627 to 639 of
the source): the content fields are replaced wholesale; the carried
status is replaced only by a truthy attempt status; the carried error is
replaced by a truthy attempt error when the attempt status is at least
400, cleared when the attempt status is below 400, and otherwise
retained. -/
def foldAttempt (st : LoopState) (a : AttemptResult) : LoopState :=
  { text := a.text
    html := a.html
    rawHtml := a.rawHtml
    screenshot := a.screenshot
    pageStatusCode :=
      if jsTruthyInt a.pageStatusCode then a.pageStatusCode.getD 0
      else st.pageStatusCode
    pageError :=
      if jsTruthyStr a.pageError && jsGe400 a.pageStatusCode then a.pageError
      else if jsLt400 a.pageStatusCode then none
      else st.pageError }

/-- The `for (const scraper of scrapersInOrder)` loop of `scrapSingleUrl`
(lines 617 to 647).  `att` gives the `attemptScraping` outcome for each
method; `cleanedExisting` and `mdExisting` are the cleaned and converted
pre-fetched content used by the short-circuit branch.  Returns the final
accumulator state together with the list of backends actually attempted.
Judging follows the source: break when the carried text is truthy with
trimmed length at least 100, break when the carried status is truthy and
equal to 404, otherwise fall through to the next backend. -/
def runLoop (att : String → AttemptResult) (existingHtml : String)
    (cleanedExisting mdExisting : String) :
    List String → LoopState → LoopState × List String
  | [], st => (st, [])
  | s :: rest, st =>
    if existingHtml ≠ "" ∧ 100 ≤ (jsTrim existingHtml).length then
      ({ st with text := mdExisting, html := cleanedExisting }, [])
    else
      let a := att s
      let st1 := foldAttempt st a
      if st1.text ≠ "" ∧ 100 ≤ (jsTrim st1.text).length then (st1, [s])
      else if st1.pageStatusCode ≠ 0 ∧ st1.pageStatusCode = 404 then (st1, [s])
      else
        let r := runLoop att existingHtml cleanedExisting mdExisting rest st1
        (r.1, s :: r.2)

/-- The loop as the specification words it: judging is evaluated on the
attempt itself, in order — trimmed text length at least 100 stops with
success, an attempt status code of exactly 404 stops the fallback, and
otherwise the loop advances to the next planned backend. -/
def runLoopClaim (att : String → AttemptResult) (existingHtml : String)
    (cleanedExisting mdExisting : String) :
    List String → LoopState → LoopState × List String
  | [], st => (st, [])
  | s :: rest, st =>
    if existingHtml ≠ "" ∧ 100 ≤ (jsTrim existingHtml).length then
      ({ st with text := mdExisting, html := cleanedExisting }, [])
    else
      let a := att s
      let st1 := foldAttempt st a
      if 100 ≤ (jsTrim a.text).length then (st1, [s])
      else if a.pageStatusCode = some 404 then (st1, [s])
      else
        let r := runLoopClaim att existingHtml cleanedExisting mdExisting rest st1
        (r.1, s :: r.2)

/-- The state folding iterated over a whole list of attempts from the
initial state, for stating the carry-over invariants. -/
def loopFold (l : List AttemptResult) : LoopState :=
  l.foldl foldAttempt initLoopState

/-- The status code an attempt reports, kept only when truthy (non-null
and non-zero). -/
def truthyCode (a : AttemptResult) : Option Int :=
  match a.pageStatusCode with
  | some v => if v ≠ 0 then some v else none
  | none => none

/-- The specification-side reference for the carried status: the most
recent truthy (non-null and non-zero) status code reported by any
attempt, defaulting to the initial 200. -/
def lastTruthyStatus (l : List AttemptResult) : Int :=
  ((l.filterMap truthyCode).getLast?).getD 200

/-- The metadata bag of the final document: the extracted page metadata
spread first, then the explicit `sourceURL`, `pageStatusCode`,
`pageError` fields (and the screenshot when one was captured). -/
structure DocumentMetadata where
  base : List (String × String)
  screenshot : Option String
  sourceURL : String
  pageStatusCode : Int
  pageError : Option String
deriving DecidableEq

/-- The `Document` assembled by `scrapSingleUrl`.  `html` and `rawHtml`
are `none` when the corresponding field is left `undefined`. -/
structure Document where
  content : String
  markdown : String
  html : Option String
  rawHtml : Option String
  metadata : DocumentMetadata
deriving DecidableEq

/-- The external collaborators `scrapSingleUrl` depends on: the
per-method attempt outcome (`attemptScraping`), `removeUnwantedElements`,
`parseMarkdown`, `extractMetadata` (over the raw html and the url), the
JavaScript `URL` hostname parser and the `urlSpecificParams` table. -/
structure Externals where
  att : String → AttemptResult
  clean : String → String
  md : String → String
  extractMeta : String → String → List (String × String)
  parseHost : String → Option String
  overrides : String → Option OverrideEntry

/-- The request options of `scrapSingleUrl` that the orchestration core
reads (`PageOptions` in the source). -/
structure PageOptions where
  includeHtml : Bool
  includeRawHtml : Bool
  waitFor : Int
  screenshot : Bool
  headers : Option (List (String × String))
deriving DecidableEq

/-- The planned backend order computed inside `scrapSingleUrl` (lines 603
to 615): the url is trimmed, its hostname normalized (falling back to the
url itself when `new URL` throws), the forced `defaultScraper` looked up
in the override table, and the planner invoked with the truthiness of
`waitFor > 0`, `screenshot === true` and the presence of headers. -/
def scrapOrder (ext : Externals) (env : EnvConfig) (urlToScrap : String)
    (po : PageOptions) : List String :=
  let url := jsTrim urlToScrap
  let urlKey :=
    match ext.parseHost url with
    | some h => stripWww h
    | none => url
  let ds := ((ext.overrides urlKey).bind OverrideEntry.defaultScraper).getD ""
  getScrapingFallbackOrder env ds (decide (0 < po.waitFor)) po.screenshot
    po.headers.isSome

/-- The loop of `scrapSingleUrl` run over the planned order from the
initial accumulator state. -/
def scrapLoop (ext : Externals) (env : EnvConfig) (urlToScrap : String)
    (po : PageOptions) (existingHtml : String) : LoopState × List String :=
  runLoop ext.att existingHtml (ext.clean existingHtml)
    (ext.md (ext.clean existingHtml)) (scrapOrder ext env urlToScrap po)
    initLoopState

/-- `scrapSingleUrl` from the source.  After the loop, an empty carried
text throws `All scraping methods failed`, which the surrounding
`try/catch` converts into a degraded document with empty content fields
and the carried status and error; otherwise the final document is
assembled, attaching the screenshot to the metadata when one is present
and gating `html`/`rawHtml` on the request options and extractor mode. -/
def scrapSingleUrl (ext : Externals) (env : EnvConfig) (urlToScrap : String)
    (po : PageOptions) (extractorMode : String) (existingHtml : String) :
    Document :=
  let url := jsTrim urlToScrap
  let st := (scrapLoop ext env urlToScrap po existingHtml).1
  if st.text = "" then
    { content := "", markdown := "", html := some "", rawHtml := none,
      metadata :=
        { base := [], screenshot := none, sourceURL := url,
          pageStatusCode := st.pageStatusCode, pageError := st.pageError } }
  else
    let metaBag := ext.extractMeta st.rawHtml url
    if st.screenshot ≠ "" then
      { content := st.text, markdown := st.text,
        html := if po.includeHtml then some st.html else none,
        rawHtml :=
          if po.includeRawHtml || extractorMode = "llm-extraction-from-raw-html"
          then some st.rawHtml else none,
        metadata :=
          { base := metaBag, screenshot := some st.screenshot, sourceURL := url,
            pageStatusCode := st.pageStatusCode, pageError := st.pageError } }
    else
      { content := st.text, markdown := st.text,
        html := if po.includeHtml then some st.html else none,
        rawHtml :=
          if po.includeRawHtml || extractorMode = "llm-extraction-from-raw-html"
          then some st.rawHtml else none,
        metadata :=
          { base := metaBag, screenshot := none, sourceURL := url,
            pageStatusCode := st.pageStatusCode, pageError := st.pageError } }

/-! ### Helper lemmas -/

theorem mem_availableScrapers {env : EnvConfig} {y : String}
    (hy : y ∈ availableScrapers env) : scraperAvailable env y = true :=
  (List.mem_filter.1 hy).2

theorem head_jsSetDedup_nil (d : String) (l : List String) :
    (jsSetDedup [] (d :: l)).head? = some d := by
  rw [jsSetDedup]
  rw [if_neg (List.not_mem_nil d)]
  rfl

/-! ### Claims about the fallback order planner -/

/-- Claim C3 as stated is false: a forced backend from the host override
table is prepended to the planner's candidates without an availability
check.  With no environment variable configured and the override forcing
`fire-engine`, the planner's output contains `fire-engine` even though
its required endpoint configuration is absent. -/
theorem plan_includes_unavailable_forced_backend :
    "fire-engine" ∈
        getScrapingFallbackOrder ⟨false, false, false⟩ "fire-engine"
          false false false ∧
      scraperAvailable ⟨false, false, false⟩ "fire-engine" = false := by
  decide

/-- Claim C3, amended: every backend in the planner's output is either
the forced backend from the host override or one whose required
endpoint/credential configuration is present; in particular, with no
forced backend, unavailable backends are excluded entirely. -/
theorem plan_members_available_or_forced (env : EnvConfig) (d : String)
    (w s h : Bool) :
    ∀ x ∈ getScrapingFallbackOrder env d w s h,
      x = d ∨ scraperAvailable env x = true := by
  intro x hx
  have h1 : x ∈ plannedCandidates env d w s h :=
    ((mem_jsSetDedup _ _).1 hx).1
  rcases em (d = "") with hd | hd
  · rw [plannedCandidates, if_pos hd] at h1
    rcases List.mem_append.1 h1 with h2 | h2
    · exact Or.inr (of_decide_eq_true (List.mem_filter.1 h2).2
        |> mem_availableScrapers)
    · exact Or.inr (mem_availableScrapers h2)
  · rw [plannedCandidates, if_neg hd] at h1
    rcases List.mem_cons.1 h1 with h2 | h2
    · exact Or.inl h2
    · rcases List.mem_append.1 h2 with h3 | h3
      · exact Or.inr (of_decide_eq_true (List.mem_filter.1 h3).2
          |> mem_availableScrapers)
      · exact Or.inr (mem_availableScrapers h3)

/-- Concrete instance of the amended claim C3: the member `fetch` of the
order planned with no forced backend and nothing configured is accounted
for by its availability. -/
theorem plan_members_available_or_forced_witness :
    "fetch" = "" ∨ scraperAvailable ⟨false, false, false⟩ "fetch" = true :=
  plan_members_available_or_forced ⟨false, false, false⟩ "" false false false
    "fetch" (by decide)

/-- Claim C4: a truthy forced backend is the first element of the
planner's output, and the output never contains duplicates; the output
is moreover a sublist of the candidate list, so the first occurrence of
each backend is the one kept. -/
theorem plan_forced_first_and_nodup (env : EnvConfig) (d : String)
    (w s h : Bool) :
    (d ≠ "" → (getScrapingFallbackOrder env d w s h).head? = some d) ∧
      (getScrapingFallbackOrder env d w s h).Nodup ∧
      (getScrapingFallbackOrder env d w s h).Sublist
        (plannedCandidates env d w s h) := by
  refine ⟨?_, nodup_jsSetDedup _ _, sublist_jsSetDedup _ _⟩
  intro hd
  rw [getScrapingFallbackOrder, plannedCandidates, if_neg hd]
  exact head_jsSetDedup_nil _ _

/-- Concrete instance of claim C4 at a forced backend named `custom`. -/
theorem plan_forced_first_and_nodup_witness :
    (getScrapingFallbackOrder ⟨true, true, true⟩ "custom" false false
        false).head? = some "custom" ∧
      (getScrapingFallbackOrder ⟨true, true, true⟩ "custom" false false
        false).Nodup := by
  have h := plan_forced_first_and_nodup ⟨true, true, true⟩ "custom" false
    false false
  exact ⟨h.1 (by decide), h.2.1⟩

/-- Claim C9: with any of the wait/screenshot/headers flags set and no
forced backend, the planner's output is the available heavy backends
(`fire-engine` first, then `playwright`) followed by the no-flags output
with the heavy backends removed, so the remainder keeps its relative
order. -/
theorem flags_promote_heavy_backends (env : EnvConfig) (w s h : Bool)
    (hf : (w || s || h) = true) :
    getScrapingFallbackOrder env "" w s h =
      (["fire-engine", "playwright"].filter
        (fun x => scraperAvailable env x)) ++
      ((getScrapingFallbackOrder env "" false false false).filter
        (fun x => decide (x ≠ "fire-engine" ∧ x ≠ "playwright"))) := by
  rcases env with ⟨sb, fe, pw⟩
  revert hf
  cases sb <;> cases fe <;> cases pw <;> cases w <;> cases s <;> cases h <;>
    decide

/-- Concrete instance of claim C9: wait requested, everything
configured. -/
theorem flags_promote_heavy_backends_witness :
    getScrapingFallbackOrder ⟨true, true, true⟩ "" true false false =
      (["fire-engine", "playwright"].filter
        (fun x => scraperAvailable ⟨true, true, true⟩ x)) ++
      ((getScrapingFallbackOrder ⟨true, true, true⟩ "" false false
        false).filter
          (fun x => decide (x ≠ "fire-engine" ∧ x ≠ "playwright"))) :=
  flags_promote_heavy_backends ⟨true, true, true⟩ true false false (by decide)

/-! ### Claims about the orchestration loop judging -/

theorem text_ne_empty_of_trim_len {t : String} (h : 100 ≤ (jsTrim t).length) :
    t ≠ "" := by
  intro he
  subst he
  exact absurd h (by decide)

theorem foldAttempt_status_of_404 (st : LoopState) (a : AttemptResult)
    (h : a.pageStatusCode = some 404) :
    (foldAttempt st a).pageStatusCode = 404 := by
  simp [foldAttempt, h, jsTruthyInt]

theorem foldAttempt_status_ne_404 (st : LoopState) (a : AttemptResult)
    (hst : st.pageStatusCode ≠ 404) (ha : a.pageStatusCode ≠ some 404) :
    (foldAttempt st a).pageStatusCode ≠ 404 := by
  rcases hpsc : a.pageStatusCode with _ | v
  · simpa [foldAttempt, hpsc, jsTruthyInt] using hst
  · by_cases hv : v = 0
    · simpa [foldAttempt, hpsc, hv, jsTruthyInt] using hst
    · have hv404 : v ≠ 404 := by
        intro h404
        exact ha (by rw [hpsc, h404])
      simpa [foldAttempt, hpsc, hv, jsTruthyInt] using hv404

/-- Claim C1: the orchestration loop's judging follows the claimed
order for every attempt.  The loop as coded (`runLoop`, whose success
test also checks truthiness of the carried text and whose 404 test reads
the carried, truthy status) behaves identically to the loop as the claim
words it (`runLoopClaim`: trimmed length at least 100 stops with the
successful attempt; otherwise an attempt status of exactly 404 stops the
fallback; otherwise the next planned backend is tried), from any carried
state whose status is not already 404 — in particular from the initial
state with its status of 200. -/
theorem loop_judging_follows_claim (att : String → AttemptResult)
    (existing cleaned mdc : String) (order : List String) (st : LoopState)
    (hst : st.pageStatusCode ≠ 404) :
    runLoop att existing cleaned mdc order st =
      runLoopClaim att existing cleaned mdc order st := by
  induction order generalizing st with
  | nil => rfl
  | cons s rest ih =>
    rw [runLoop, runLoopClaim]
    by_cases hsc : existing ≠ "" ∧ 100 ≤ (jsTrim existing).length
    · rw [if_pos hsc, if_pos hsc]
    · rw [if_neg hsc, if_neg hsc]
      have htext : (foldAttempt st (att s)).text = (att s).text := rfl
      by_cases h1 : 100 ≤ (jsTrim (att s).text).length
      · rw [if_pos h1, if_pos (show (foldAttempt st (att s)).text ≠ "" ∧
          100 ≤ (jsTrim (foldAttempt st (att s)).text).length from
            ⟨htext ▸ text_ne_empty_of_trim_len h1, htext ▸ h1⟩)]
      · have hc1 : ¬((foldAttempt st (att s)).text ≠ "" ∧
            100 ≤ (jsTrim (foldAttempt st (att s)).text).length) := by
          rintro ⟨_, hl⟩
          exact h1 (htext ▸ hl)
        rw [if_neg hc1, if_neg h1]
        by_cases h2 : (att s).pageStatusCode = some 404
        · have h404 := foldAttempt_status_of_404 st (att s) h2
          rw [if_pos h2, if_pos (show (foldAttempt st (att s)).pageStatusCode ≠ 0 ∧
            (foldAttempt st (att s)).pageStatusCode = 404 from
              ⟨by rw [h404]; decide, h404⟩)]
        · have hne := foldAttempt_status_ne_404 st (att s) hst h2
          have hc2 : ¬((foldAttempt st (att s)).pageStatusCode ≠ 0 ∧
              (foldAttempt st (att s)).pageStatusCode = 404) := by
            rintro ⟨_, h404⟩
            exact hne h404
          rw [if_neg hc2, if_neg h2, ih _ hne]

/-- Concrete instance of claim C1: from the initial state (carried
status 200), a three-backend plan whose first attempt yields 99
characters of trimmed text and no 404, whose second yields a 404, judged
exactly as the claim words it: the loop attempts the first two backends
and stops at the 404 without attempting the third. -/
theorem loop_judging_follows_claim_witness :
    runLoop
        (fun s =>
          if s = "b" then
            { text := "", html := "", rawHtml := "", screenshot := "",
              pageStatusCode := some 404, pageError := some "Not Found" }
          else
            { text := String.mk (List.replicate 99 'x'), html := "",
              rawHtml := "", screenshot := "", pageStatusCode := some 200,
              pageError := none })
        "" "" "" ["a", "b", "c"] initLoopState =
      runLoopClaim
        (fun s =>
          if s = "b" then
            { text := "", html := "", rawHtml := "", screenshot := "",
              pageStatusCode := some 404, pageError := some "Not Found" }
          else
            { text := String.mk (List.replicate 99 'x'), html := "",
              rawHtml := "", screenshot := "", pageStatusCode := some 200,
              pageError := none })
        "" "" "" ["a", "b", "c"] initLoopState ∧
      (runLoop
        (fun s =>
          if s = "b" then
            { text := "", html := "", rawHtml := "", screenshot := "",
              pageStatusCode := some 404, pageError := some "Not Found" }
          else
            { text := String.mk (List.replicate 99 'x'), html := "",
              rawHtml := "", screenshot := "", pageStatusCode := some 200,
              pageError := none })
        "" "" "" ["a", "b", "c"] initLoopState).2 = ["a", "b"] :=
  ⟨loop_judging_follows_claim _ "" "" "" ["a", "b", "c"] initLoopState
      (by decide),
    by decide⟩

/-! ### Claims about the status/error carry-over -/

theorem foldAttempt_error_inv (st : LoopState) (a : AttemptResult)
    (hst : st.pageError.isSome → 400 ≤ st.pageStatusCode) :
    (foldAttempt st a).pageError.isSome →
      400 ≤ (foldAttempt st a).pageStatusCode := by
  rcases hpsc : a.pageStatusCode with _ | v
  · simpa [foldAttempt, hpsc, jsTruthyInt, jsGe400, jsLt400] using hst
  · by_cases hv : v = 0
    · subst hv
      simp [foldAttempt, hpsc, jsTruthyInt, jsGe400, jsLt400]
    · by_cases hge : 400 ≤ v
      · simp only [foldAttempt, hpsc, jsTruthyInt, jsGe400, jsLt400]
        split_ifs <;> simp_all
      · have hlt : v < 400 := by omega
        simp only [foldAttempt, hpsc, jsTruthyInt, jsGe400, jsLt400]
        split_ifs <;> simp_all

theorem foldl_error_inv (l : List AttemptResult) :
    ∀ st : LoopState, (st.pageError.isSome → 400 ≤ st.pageStatusCode) →
      ((l.foldl foldAttempt st).pageError.isSome →
        400 ≤ (l.foldl foldAttempt st).pageStatusCode) := by
  induction l with
  | nil => intro st hst; exact hst
  | cons a l ih =>
    intro st hst
    rw [List.foldl_cons]
    exact ih _ (foldAttempt_error_inv st a hst)

theorem getLast?_getD_cons (v : Int) : ∀ (xs : List Int) (d : Int),
    (((v :: xs).getLast?).getD d) = ((xs.getLast?).getD v) := by
  intro xs
  induction xs generalizing v with
  | nil => intro d; rfl
  | cons y ys ih =>
    intro d
    rw [List.getLast?_cons_cons, ih y d, ih y v]

theorem foldl_status_eq_lastTruthy (l : List AttemptResult) :
    ∀ st : LoopState, (l.foldl foldAttempt st).pageStatusCode =
      (((l.filterMap truthyCode).getLast?).getD st.pageStatusCode) := by
  induction l with
  | nil => intro st; rfl
  | cons a l ih =>
    intro st
    rw [List.foldl_cons, List.filterMap_cons, ih]
    rcases hpsc : a.pageStatusCode with _ | v
    · have ht : truthyCode a = none := by simp [truthyCode, hpsc]
      rw [ht]
      congr 1
      simp [foldAttempt, hpsc, jsTruthyInt]
    · by_cases hv : v = 0
      · subst hv
        have ht : truthyCode a = none := by simp [truthyCode, hpsc]
        rw [ht]
        congr 1
        simp [foldAttempt, hpsc, jsTruthyInt]
      · have ht : truthyCode a = some v := by simp [truthyCode, hpsc, hv]
        have hfold : (foldAttempt st a).pageStatusCode = v := by
          simp [foldAttempt, hpsc, jsTruthyInt, hv]
        rw [ht, hfold, getLast?_getD_cons]

/-- Claim C5 as stated is false on the code: the carried status is not
the most recent non-null status code, because the source guards the
update with JavaScript truthiness (`if (attempt.pageStatusCode)`), which
ignores a reported status of `0`.  After an attempt reporting 500
followed by an attempt reporting 0, the carried status is 500 while the
most recent non-null reported status is 0. -/
theorem carried_status_not_last_nonnull :
    (loopFold
        [{ text := "", html := "", rawHtml := "", screenshot := "",
           pageStatusCode := some 500, pageError := none },
         { text := "", html := "", rawHtml := "", screenshot := "",
           pageStatusCode := some 0, pageError := none }]).pageStatusCode =
        500 ∧
      (([{ text := "", html := "", rawHtml := "", screenshot := "",
           pageStatusCode := some 500, pageError := none },
         { text := "", html := "", rawHtml := "", screenshot := "",
           pageStatusCode := some 0,
           pageError := none }].filterMap
            AttemptResult.pageStatusCode).getLast?).getD 200 = 0 ∧
      (500 : Int) ≠ 0 := by
  decide

/-- Claim C5, amended: after any sequence of attempts is folded into the
carried state, (1) `pageError` is populated only when the carried
`pageStatusCode` is at least 400, (2) an attempt reporting a status
below 400 clears any inherited `pageError`, and (3) the carried
`pageStatusCode` is the most recent truthy — non-null and non-zero —
status code reported by any attempt (attempts reporting a null or zero
status leave it unchanged, starting from the initial 200). -/
theorem loop_state_error_invariant (l : List AttemptResult) :
    ((loopFold l).pageError.isSome → 400 ≤ (loopFold l).pageStatusCode) ∧
      (∀ (st : LoopState) (a : AttemptResult) (v : Int),
        a.pageStatusCode = some v → v < 400 →
          (foldAttempt st a).pageError = none) ∧
      (loopFold l).pageStatusCode = lastTruthyStatus l := by
  refine ⟨foldl_error_inv l initLoopState (by intro h; cases h), ?_, ?_⟩
  · intro st a v hpsc hlt
    have hge : jsGe400 a.pageStatusCode = false := by
      simp [jsGe400, hpsc]
      omega
    have hlt400 : jsLt400 a.pageStatusCode = true := by
      simp [jsLt400, hpsc]
      omega
    simp [foldAttempt, hge, hlt400]
  · exact foldl_status_eq_lastTruthy l initLoopState

/-- Concrete instance of the amended claim C5: a failed attempt carrying
an error and status 500 leaves the error populated with the carried
status at 500; a follow-up attempt with status 200 clears it; the
carried status equals the most recent truthy status. -/
theorem loop_state_error_invariant_witness :
    400 ≤
        (loopFold
          [{ text := "", html := "", rawHtml := "", screenshot := "",
             pageStatusCode := some 500,
             pageError := some "Internal Server Error" }]).pageStatusCode ∧
      (foldAttempt
          (loopFold
            [{ text := "", html := "", rawHtml := "", screenshot := "",
               pageStatusCode := some 500,
               pageError := some "Internal Server Error" }])
          { text := "", html := "", rawHtml := "", screenshot := "",
            pageStatusCode := some 200, pageError := none }).pageError =
        none ∧
      (loopFold
          [{ text := "", html := "", rawHtml := "", screenshot := "",
             pageStatusCode := some 500,
             pageError := some "Internal Server Error" }]).pageStatusCode =
        lastTruthyStatus
          [{ text := "", html := "", rawHtml := "", screenshot := "",
             pageStatusCode := some 500,
             pageError := some "Internal Server Error" }] := by
  have h := loop_state_error_invariant
    [{ text := "", html := "", rawHtml := "", screenshot := "",
       pageStatusCode := some 500,
       pageError := some "Internal Server Error" }]
  exact ⟨h.1 (by decide), h.2.1 _ _ 200 rfl (by decide), h.2.2⟩

/-! ### Claims about exhaustion and the short-circuit -/

theorem runLoop_text_empty (att : String → AttemptResult)
    (existing cleaned mdc : String)
    (hsc : ¬(existing ≠ "" ∧ 100 ≤ (jsTrim existing).length)) :
    ∀ (order : List String) (st : LoopState),
      (∀ b ∈ order, (att b).text = "") → st.text = "" →
        ((runLoop att existing cleaned mdc order st).1).text = "" := by
  intro order
  induction order with
  | nil => intro st _ hst; exact hst
  | cons s rest ih =>
    intro st hall hst
    have hs : (att s).text = "" := hall s (List.mem_cons_self s rest)
    rw [runLoop, if_neg hsc]
    have h1 : ¬((foldAttempt st (att s)).text ≠ "" ∧
        100 ≤ (jsTrim (foldAttempt st (att s)).text).length) := by
      rintro ⟨hne, _⟩
      exact hne hs
    rw [if_neg h1]
    by_cases h2 : (foldAttempt st (att s)).pageStatusCode ≠ 0 ∧
        (foldAttempt st (att s)).pageStatusCode = 404
    · rw [if_pos h2]
      exact hs
    · rw [if_neg h2]
      exact ih _ (fun b hb => hall b (List.mem_cons_of_mem _ hb)) hs

theorem runLoop_preserves_status_error (att : String → AttemptResult)
    (existing cleaned mdc : String)
    (hsc : ¬(existing ≠ "" ∧ 100 ≤ (jsTrim existing).length)) :
    ∀ (order : List String) (st : LoopState),
      (∀ b ∈ order, (att b).text = "" ∧ (att b).pageStatusCode = none) →
        ((runLoop att existing cleaned mdc order st).1).pageStatusCode =
            st.pageStatusCode ∧
          ((runLoop att existing cleaned mdc order st).1).pageError =
            st.pageError := by
  intro order
  induction order with
  | nil => intro st _; exact ⟨rfl, rfl⟩
  | cons s rest ih =>
    intro st hall
    obtain ⟨hs, hpsc⟩ := hall s (List.mem_cons_self s rest)
    have hpscEq : (foldAttempt st (att s)).pageStatusCode =
        st.pageStatusCode := by
      simp [foldAttempt, hpsc, jsTruthyInt]
    have hperrEq : (foldAttempt st (att s)).pageError = st.pageError := by
      simp [foldAttempt, hpsc, jsTruthyInt, jsGe400, jsLt400]
    rw [runLoop, if_neg hsc]
    have h1 : ¬((foldAttempt st (att s)).text ≠ "" ∧
        100 ≤ (jsTrim (foldAttempt st (att s)).text).length) := by
      rintro ⟨hne, _⟩
      exact hne hs
    rw [if_neg h1]
    by_cases h2 : (foldAttempt st (att s)).pageStatusCode ≠ 0 ∧
        (foldAttempt st (att s)).pageStatusCode = 404
    · rw [if_pos h2]
      exact ⟨hpscEq, hperrEq⟩
    · rw [if_neg h2]
      have hrec := ih (foldAttempt st (att s))
        (fun b hb => hall b (List.mem_cons_of_mem _ hb))
      exact ⟨hrec.1.trans hpscEq, hrec.2.trans hperrEq⟩

/-- Claim C2: when no planned backend attempt yields text (and the
pre-fetched content does not short-circuit the loop), `scrapSingleUrl`
returns the degraded document — empty `content` and `markdown`, the
trimmed source url, and the carried status and error of the loop — and
by construction of the embedding (total functions, the thrown
`All scraping methods failed` converted by the surrounding `try/catch`)
no exception reaches the caller. -/
theorem exhaustion_returns_degraded_document (ext : Externals)
    (env : EnvConfig) (url : String) (po : PageOptions) (mode existing : String)
    (hsc : ¬(existing ≠ "" ∧ 100 ≤ (jsTrim existing).length))
    (hall : ∀ b ∈ scrapOrder ext env url po, (ext.att b).text = "") :
    scrapSingleUrl ext env url po mode existing =
      { content := "", markdown := "", html := some "", rawHtml := none,
        metadata :=
          { base := [], screenshot := none, sourceURL := jsTrim url,
            pageStatusCode :=
              ((scrapLoop ext env url po existing).1).pageStatusCode,
            pageError := ((scrapLoop ext env url po existing).1).pageError } } := by
  have htext : ((scrapLoop ext env url po existing).1).text = "" := by
    unfold scrapLoop
    exact runLoop_text_empty _ _ _ _ hsc _ _ hall rfl
  unfold scrapSingleUrl
  rw [if_pos htext]

/-- Concrete instance of claim C2: nothing configured but the always
available plain fetch, which reports no text; the caller receives the
degraded document with the source url and the initial status. -/
theorem exhaustion_returns_degraded_document_witness :
    scrapSingleUrl
        { att := fun _ =>
            { text := "", html := "", rawHtml := "", screenshot := "",
              pageStatusCode := none, pageError := none },
          clean := fun s => s, md := fun s => s,
          extractMeta := fun _ _ => [], parseHost := fun _ => none,
          overrides := fun _ => none }
        ⟨false, false, false⟩ "https://example.com"
        { includeHtml := false, includeRawHtml := false, waitFor := 0,
          screenshot := false, headers := none } "markdown" "" =
      { content := "", markdown := "", html := some "", rawHtml := none,
        metadata :=
          { base := [], screenshot := none,
            sourceURL := "https://example.com", pageStatusCode := 200,
            pageError := none } } := by
  rw [exhaustion_returns_degraded_document _ _ _ _ _ _ (by decide)
    (fun b _ => rfl)]
  rfl

/-- Claim C10: when every planned backend fails at the transport level
(no text and no reported status code at all), the degraded document's
metadata carries the loop's initial default status of 200 and no error,
so the caller cannot tell total transport failure from a successful
status by `pageStatusCode` alone. -/
theorem transport_failure_status_defaults_200 (ext : Externals)
    (env : EnvConfig) (url : String) (po : PageOptions) (mode existing : String)
    (hsc : ¬(existing ≠ "" ∧ 100 ≤ (jsTrim existing).length))
    (hall : ∀ b ∈ scrapOrder ext env url po,
      (ext.att b).text = "" ∧ (ext.att b).pageStatusCode = none) :
    (scrapSingleUrl ext env url po mode existing).content = "" ∧
      (scrapSingleUrl ext env url po mode existing).metadata.pageStatusCode =
        200 ∧
      (scrapSingleUrl ext env url po mode existing).metadata.pageError =
        none := by
  have htext : ((scrapLoop ext env url po existing).1).text = "" := by
    unfold scrapLoop
    exact runLoop_text_empty _ _ _ _ hsc _ _ (fun b hb => (hall b hb).1) rfl
  have hkeep := runLoop_preserves_status_error ext.att existing
    (ext.clean existing) (ext.md (ext.clean existing)) hsc
    (scrapOrder ext env url po) initLoopState hall
  unfold scrapSingleUrl
  rw [if_pos htext]
  refine ⟨rfl, ?_, ?_⟩
  · exact hkeep.1
  · exact hkeep.2

/-- Concrete instance of claim C10: the transport-level failure of the
single available backend leaves the degraded document reporting status
200. -/
theorem transport_failure_status_defaults_200_witness :
    (scrapSingleUrl
        { att := fun _ =>
            { text := "", html := "", rawHtml := "", screenshot := "",
              pageStatusCode := none, pageError := none },
          clean := fun s => s, md := fun s => s,
          extractMeta := fun _ _ => [], parseHost := fun _ => none,
          overrides := fun _ => none }
        ⟨false, false, false⟩ "https://down.example"
        { includeHtml := false, includeRawHtml := false, waitFor := 0,
          screenshot := false, headers := none } "markdown" "").content = "" ∧
      (scrapSingleUrl
        { att := fun _ =>
            { text := "", html := "", rawHtml := "", screenshot := "",
              pageStatusCode := none, pageError := none },
          clean := fun s => s, md := fun s => s,
          extractMeta := fun _ _ => [], parseHost := fun _ => none,
          overrides := fun _ => none }
        ⟨false, false, false⟩ "https://down.example"
        { includeHtml := false, includeRawHtml := false, waitFor := 0,
          screenshot := false, headers := none } "markdown"
        "").metadata.pageStatusCode = 200 ∧
      (scrapSingleUrl
        { att := fun _ =>
            { text := "", html := "", rawHtml := "", screenshot := "",
              pageStatusCode := none, pageError := none },
          clean := fun s => s, md := fun s => s,
          extractMeta := fun _ _ => [], parseHost := fun _ => none,
          overrides := fun _ => none }
        ⟨false, false, false⟩ "https://down.example"
        { includeHtml := false, includeRawHtml := false, waitFor := 0,
          screenshot := false, headers := none } "markdown"
        "").metadata.pageError = none :=
  transport_failure_status_defaults_200 _ _ _ _ _ _ (by decide)
    (fun b _ => ⟨rfl, rfl⟩)

/-- The plain `fetch` backend needs no configuration, so it is always
among the planner's candidates and the planned order is never empty. -/
theorem fetch_mem_order (env : EnvConfig) (d : String) (w s h : Bool) :
    "fetch" ∈ getScrapingFallbackOrder env d w s h := by
  apply (mem_jsSetDedup _ _).2
  refine ⟨?_, List.not_mem_nil _⟩
  have hf : "fetch" ∈ availableScrapers env := by
    apply List.mem_filter.2
    refine ⟨by decide, ?_⟩
    rfl
  rcases em (d = "") with hd | hd
  · rw [plannedCandidates, if_pos hd]
    exact List.mem_append_right _ hf
  · rw [plannedCandidates, if_neg hd]
    exact List.mem_cons_of_mem _ (List.mem_append_right _ hf)

/-- Claim C7: pre-fetched content of trimmed length at least 100 makes
the loop invoke no backend at all — the attempted-backend list is empty
and the outcome does not depend on the attempt function — and the loop
exits with the cleaned, converted pre-fetched content as its text. -/
theorem prefetched_bypasses_backends (ext : Externals) (env : EnvConfig)
    (url : String) (po : PageOptions) (existing : String)
    (h : 100 ≤ (jsTrim existing).length) :
    (scrapLoop ext env url po existing).2 = [] ∧
      ((scrapLoop ext env url po existing).1).text =
        ext.md (ext.clean existing) ∧
      ((scrapLoop ext env url po existing).1).html = ext.clean existing ∧
      (∀ f, scrapLoop { ext with att := f } env url po existing =
        scrapLoop ext env url po existing) := by
  have hcond : existing ≠ "" ∧ 100 ≤ (jsTrim existing).length :=
    ⟨text_ne_empty_of_trim_len h, h⟩
  rcases horder : scrapOrder ext env url po with _ | ⟨s, rest⟩
  · exfalso
    have hmem : "fetch" ∈ scrapOrder ext env url po := by
      unfold scrapOrder
      exact fetch_mem_order _ _ _ _ _
    rw [horder] at hmem
    exact List.not_mem_nil _ hmem
  · have hstep : ∀ g : String → AttemptResult,
        runLoop g existing (ext.clean existing) (ext.md (ext.clean existing))
            (s :: rest) initLoopState =
          ({ text := ext.md (ext.clean existing), html := ext.clean existing,
             rawHtml := "", screenshot := "", pageStatusCode := 200,
             pageError := none }, []) := by
      intro g
      rw [runLoop, if_pos hcond]
      rfl
    have hself : scrapLoop ext env url po existing =
        ({ text := ext.md (ext.clean existing), html := ext.clean existing,
           rawHtml := "", screenshot := "", pageStatusCode := 200,
           pageError := none }, []) := by
      unfold scrapLoop
      rw [horder]
      exact hstep ext.att
    refine ⟨by rw [hself], by rw [hself], by rw [hself], ?_⟩
    intro f
    have horder2 : scrapOrder { ext with att := f } env url po =
        scrapOrder ext env url po := rfl
    unfold scrapLoop
    rw [horder2, horder]
    rw [hstep f, hstep ext.att]

/-- Concrete instance of claim C7: 120 characters of pre-fetched content
bypass every backend attempt. -/
theorem prefetched_bypasses_backends_witness :
    (scrapLoop
        { att := fun _ =>
            { text := "", html := "", rawHtml := "", screenshot := "",
              pageStatusCode := none, pageError := none },
          clean := fun s => s, md := fun s => s,
          extractMeta := fun _ _ => [], parseHost := fun _ => none,
          overrides := fun _ => none }
        ⟨true, true, true⟩ "https://example.com"
        { includeHtml := false, includeRawHtml := false, waitFor := 0,
          screenshot := false, headers := none }
        (String.mk (List.replicate 120 'y'))).2 = [] ∧
      ((scrapLoop
        { att := fun _ =>
            { text := "", html := "", rawHtml := "", screenshot := "",
              pageStatusCode := none, pageError := none },
          clean := fun s => s, md := fun s => s,
          extractMeta := fun _ _ => [], parseHost := fun _ => none,
          overrides := fun _ => none }
        ⟨true, true, true⟩ "https://example.com"
        { includeHtml := false, includeRawHtml := false, waitFor := 0,
          screenshot := false, headers := none }
        (String.mk (List.replicate 120 'y'))).1).text =
        String.mk (List.replicate 120 'y') := by
  have h := prefetched_bypasses_backends
    { att := fun _ =>
        { text := "", html := "", rawHtml := "", screenshot := "",
          pageStatusCode := none, pageError := none },
      clean := fun s => s, md := fun s => s,
      extractMeta := fun _ _ => [], parseHost := fun _ => none,
      overrides := fun _ => none }
    ⟨true, true, true⟩ "https://example.com"
    { includeHtml := false, includeRawHtml := false, waitFor := 0,
      screenshot := false, headers := none }
    (String.mk (List.replicate 120 'y')) (by decide)
  exact ⟨h.1, h.2.1⟩

/-! ### Claims about the custom override hook -/

/-- A backend adapter response with a screenshot, for exercising the
custom hook. -/
def origAdapter : String → FireEngineResponse := fun _ =>
  { html := "orig", screenshot := "origshot", pageStatusCode := some 200,
    pageError := none }

/-- A directive redirecting the attempt to a fire-engine re-fetch. -/
def feDirective : CustomScraperResult :=
  { scraper := CustomScraperKind.fireEngine, url := "https://example.com/app",
    waitAfterLoad := 0 }

/-- A hook that always returns the fire-engine directive. -/
def feHook : String → String → Option CustomScraperResult := fun _ _ =>
  some feDirective

/-- The replacement fetch's response, carrying a fresh screenshot. -/
def feReplacement : CustomScraperResult → FireEngineResponse := fun _ =>
  { html := "new", screenshot := "newshot", pageStatusCode := some 200,
    pageError := none }

/-- A pdf extractor stub returning nothing. -/
def emptyPdf : String → PdfResult := fun _ =>
  { content := "", pageStatusCode := none, pageError := none }

/-- Claim C6 as stated is false on the code: the extra fetch's html does
replace the attempt's content, but its screenshot is assigned to a local
variable that is never read again, so the attempt's returned screenshot
is still the original backend's.  Concretely, with the backend returning
screenshot `origshot` and the directive's replacement fetch returning
screenshot `newshot`, the attempt returns content `new` (replaced) but
screenshot `origshot` (not the extra fetch's `newshot`). -/
theorem custom_hook_screenshot_not_replaced :
    (attemptScraping ⟨true, true, true⟩ origAdapter feHook feReplacement
        emptyPdf (fun s => s) (fun s => s) "https://example.com"
        "fire-engine").result.rawHtml = "new" ∧
      (attemptScraping ⟨true, true, true⟩ origAdapter feHook feReplacement
        emptyPdf (fun s => s) (fun s => s) "https://example.com"
        "fire-engine").result.screenshot = "origshot" ∧
      (applyCustomScraper feReplacement emptyPdf "" feDirective).screenshot =
        "newshot" ∧
      ("origshot" : String) ≠ "newshot" := by
  decide

/-- Claim C6, amended: the hook is invoked exactly once per attempt, on
the original backend's text (never on the replacement); when it returns
no directive the attempt's content and screenshot are unchanged; when it
returns a directive exactly one extra fetch happens and its html
replaces the attempt's content — raw and converted — before judgment,
while the attempt's returned screenshot remains the original backend's
(the extra fetch's screenshot is discarded). -/
theorem custom_hook_single_fetch (env : EnvConfig)
    (adapters : String → FireEngineResponse)
    (hook : String → String → Option CustomScraperResult)
    (feFetch : CustomScraperResult → FireEngineResponse)
    (pdfFetch : String → PdfResult) (clean md : String → String)
    (url method : String) :
    (attemptScraping env adapters hook feFetch pdfFetch clean md url
        method).hookCalls = [(runBackend env adapters method).text] ∧
      (hook (runBackend env adapters method).text url = none →
        (attemptScraping env adapters hook feFetch pdfFetch clean md url
            method).extraFetches = 0 ∧
          (attemptScraping env adapters hook feFetch pdfFetch clean md url
            method).result.rawHtml = (runBackend env adapters method).text ∧
          (attemptScraping env adapters hook feFetch pdfFetch clean md url
            method).result.text =
            md (clean (runBackend env adapters method).text) ∧
          (attemptScraping env adapters hook feFetch pdfFetch clean md url
            method).result.screenshot =
            (runBackend env adapters method).screenshot) ∧
      (∀ csr, hook (runBackend env adapters method).text url = some csr →
        (attemptScraping env adapters hook feFetch pdfFetch clean md url
            method).extraFetches = 1 ∧
          (attemptScraping env adapters hook feFetch pdfFetch clean md url
            method).result.rawHtml =
            (applyCustomScraper feFetch pdfFetch "" csr).html ∧
          (attemptScraping env adapters hook feFetch pdfFetch clean md url
            method).result.text =
            md (clean (applyCustomScraper feFetch pdfFetch "" csr).html) ∧
          (attemptScraping env adapters hook feFetch pdfFetch clean md url
            method).result.screenshot =
            (runBackend env adapters method).screenshot) := by
  refine ⟨rfl, ?_, ?_⟩
  · intro hd
    simp [attemptScraping, hd]
  · intro csr hd
    simp [attemptScraping, hd]

/-- A directive redirecting the attempt to the pdf extractor. -/
def pdfDirective : CustomScraperResult :=
  { scraper := CustomScraperKind.pdf, url := "https://example.com/doc.pdf",
    waitAfterLoad := 0 }

/-- A hook that always returns the pdf directive. -/
def pdfHook : String → String → Option CustomScraperResult := fun _ _ =>
  some pdfDirective

/-- A pdf extractor stub returning some text. -/
def textPdf : String → PdfResult := fun _ =>
  { content := "pdf text", pageStatusCode := some 200, pageError := none }

/-- An idle fire-engine re-fetch stub. -/
def idleFeFetch : CustomScraperResult → FireEngineResponse := fun _ =>
  { html := "", screenshot := "", pageStatusCode := none, pageError := none }

/-- Concrete instance of the amended claim C6: a directive naming the
pdf extractor triggers exactly one extra fetch whose content replaces
the attempt's raw content. -/
theorem custom_hook_single_fetch_witness :
    (attemptScraping ⟨true, true, true⟩ origAdapter pdfHook idleFeFetch
        textPdf (fun s => s) (fun s => s) "https://example.com"
        "fire-engine").extraFetches = 1 ∧
      (attemptScraping ⟨true, true, true⟩ origAdapter pdfHook idleFeFetch
        textPdf (fun s => s) (fun s => s) "https://example.com"
        "fire-engine").result.rawHtml = "pdf text" := by
  have h := custom_hook_single_fetch ⟨true, true, true⟩ origAdapter pdfHook
    idleFeFetch textPdf (fun s => s) (fun s => s) "https://example.com"
    "fire-engine"
  have h2 := h.2.2 pdfDirective rfl
  exact ⟨h2.1, h2.2.1.trans rfl⟩

/-! ### Claims about the host parameter resolver -/

/-- Claim C8: `generateRequestParams` returns exactly the defaults when
the url is malformed (the parser yields nothing — the caught-exception
path, so the caller never sees a failure) or when the normalized host has
no override entry; when the host has an entry, every field present in
the entry appears verbatim in the result and absent fields retain their
default values. -/
theorem generateRequestParams_resolution
    (parseHost : String → Option String)
    (overrides : String → Option OverrideEntry)
    (url wb : String) (t : Int) :
    (parseHost url = none →
      generateRequestParams parseHost overrides url wb t =
        defaultRequestParams url wb t) ∧
      (∀ h, parseHost url = some h → overrides (stripWww h) = none →
        generateRequestParams parseHost overrides url wb t =
          defaultRequestParams url wb t) ∧
      (∀ h o, parseHost url = some h → overrides (stripWww h) = some o →
        (generateRequestParams parseHost overrides url wb t).url =
            o.url.getD url ∧
          (generateRequestParams parseHost overrides url wb t).params =
            o.params.getD { timeout := t, wait_browser := wb } ∧
          (generateRequestParams parseHost overrides url wb t).headers =
            o.headers.getD [("ScrapingService-Request", "TRUE")]) := by
  refine ⟨?_, ?_, ?_⟩
  · intro hp
    simp [generateRequestParams, hp]
  · intro h hp ho
    simp [generateRequestParams, hp, ho]
  · intro h o hp ho
    refine ⟨?_, ?_, ?_⟩ <;> simp [generateRequestParams, defaultRequestParams, hp, ho]

/-- A one-entry override table for `example.com`, replacing only the
`params` field. -/
def exampleOverrides : String → Option OverrideEntry := fun k =>
  if k = "example.com" then
    some { url := none,
           params := some { timeout := 9, wait_browser := "networkidle2" },
           headers := none, defaultScraper := none }
  else none

/-- Concrete instance of claim C8: for a host with an override entry
(found after stripping the `www.` prefix), the overridden `params` field
appears verbatim while the absent `url` and `headers` fields keep their
defaults; for a malformed url the defaults are returned. -/
theorem generateRequestParams_resolution_witness :
    (generateRequestParams (fun _ => some "www.example.com")
        exampleOverrides "https://www.example.com/x" "domcontentloaded"
        15000).params = { timeout := 9, wait_browser := "networkidle2" } ∧
      (generateRequestParams (fun _ => some "www.example.com")
        exampleOverrides "https://www.example.com/x" "domcontentloaded"
        15000).url = "https://www.example.com/x" ∧
      (generateRequestParams (fun _ => some "www.example.com")
        exampleOverrides "https://www.example.com/x" "domcontentloaded"
        15000).headers = [("ScrapingService-Request", "TRUE")] ∧
      generateRequestParams (fun _ => none) exampleOverrides "not a url"
        "domcontentloaded" 15000 =
        defaultRequestParams "not a url" "domcontentloaded" 15000 := by
  have h := generateRequestParams_resolution (fun _ => some "www.example.com")
    exampleOverrides "https://www.example.com/x" "domcontentloaded" 15000
  have h3 := h.2.2 "www.example.com"
    { url := none,
      params := some { timeout := 9, wait_browser := "networkidle2" },
      headers := none, defaultScraper := none } rfl (by decide)
  have hm := generateRequestParams_resolution (fun _ => none)
    exampleOverrides "not a url" "domcontentloaded" 15000
  exact ⟨h3.2.1, h3.1, h3.2.2, hm.1 rfl⟩
